import Mathlib

/-!
Verification of the Zen-GPT Notion wrapper (`src/main.py`).

The service is a thin Flask façade over the Notion API.  We shallowly embed
the pure parts of each request handler: JSON-like values, Python `dict`
operations (subscript, `.get`, assignment, truthiness), the retry wrapper
`safe_notion_call`, the field-type mapping loops of `create_table` and
`update_table`, the row-value encoding loop of `insert_row`, and the row
decoding loop of `get_rows`.  Effectful vendor calls are modelled by
passing the vendor outcome in explicitly; a handler's control flow up to
the vendor call is reified as a `HandlerStep` value, so "the vendor is
never invoked" is expressible as "the step is not a vendor-call step".
-/

/-- JSON-like values as handled by the Python code: the request bodies,
vendor payloads and vendor responses are Python objects produced by JSON
parsing (dicts modelled as association lists in insertion order, which is
how Python dicts iterate). -/
inductive Json where
  | null
  | bool (b : Bool)
  | num (n : Int)
  | str (s : String)
  | arr (elems : List Json)
  | obj (fields : List (String × Json))

namespace Json

/-- Python truthiness (`bool(x)`) of a JSON value: `None`, `False`, `0`,
`""`, `[]`, `{}` are falsy, everything else truthy. -/
def truthy : Json → Bool
  | .null => false
  | .bool b => b
  | .num n => n != 0
  | .str s => !s.isEmpty
  | .arr xs => !xs.isEmpty
  | .obj fs => !fs.isEmpty

/-- Python `x == "lit"` for a JSON value `x` and a string literal: true
exactly when `x` is that string; comparison with a non-string value is
`False`, never an error. -/
def isStr : Json → String → Bool
  | .str t, s => t = s
  | _, _ => false

end Json

/-- First binding of a key in an association list (Python dict lookup;
keys of a parsed JSON object are unique). -/
def assocFind : List (String × Json) → String → Option Json
  | [], _ => none
  | (k, v) :: rest, key => if k = key then some v else assocFind rest key

namespace Json

/-- Python `d.get(k)`: on a dict, the value or `None`; on a non-dict,
an `AttributeError` (the handlers call `.get` outside their `try` block,
so this error is unhandled). -/
def pyGet : Json → String → Except String Json
  | .obj fs, k => .ok ((assocFind fs k).getD .null)
  | _, _ => .error "AttributeError: no attribute get"

/-- Python subscript `d[k]` on a dict: the value, or a `KeyError` when the
key is absent; a `TypeError` on a non-dict. -/
def sub : Json → String → Except String Json
  | .obj fs, k =>
    match assocFind fs k with
    | some v => .ok v
    | none => .error ("KeyError: " ++ k)
  | _, _ => .error "TypeError: not subscriptable"

/-- Python `xs[0]` on a list: the head, or an `IndexError` when empty; a
`TypeError` on a non-list. -/
def head : Json → Except String Json
  | .arr (x :: _) => .ok x
  | .arr [] => .error "IndexError: list index out of range"
  | _ => .error "TypeError: not indexable"

end Json

/-- Python dict assignment `d[k] = v`: replaces the value of an existing
key in place (keeping its position), otherwise appends the new binding. -/
def dictSet (d : List (String × Json)) (k : String) (v : Json) : List (String × Json) :=
  if (assocFind d k).isSome then
    d.map (fun p => if p.1 = k then (k, v) else p)
  else
    d ++ [(k, v)]

/-- Membership test `k in d` of a key in a Python dict. -/
def Json.hasKey : Json → String → Bool
  | .obj fs, k => (assocFind fs k).isSome
  | _, _ => false

/-- Retry wrapper `safe_notion_call(func, retries=1, delay=2)` (main.py
lines 19-27), with the effectful zero-argument `func` modelled as a map
from the attempt index (number of prior invocations) to that attempt's
outcome.  Returns the propagated outcome together with the number of times
`func` was invoked and the number of `time.sleep(delay)` pauses performed:
a success returns it; a failure with `retries > 0` sleeps `delay` seconds
and recurses with `retries - 1`; a failure with `retries == 0` re-raises
that same exception. -/
def safe_notion_call {A : Type} (func : Nat → Except String A) :
    Nat → Nat → Nat → Except String A × Nat × Nat
  | retries, delay, attempt =>
    match func attempt with
    | .ok result => (.ok result, 1, 0)
    | .error e =>
      match retries with
      | 0 => (.error e, 1, 0)
      | r + 1 =>
        let rest := safe_notion_call func r delay (attempt + 1)
        (rest.1, rest.2.1 + 1, rest.2.2 + 1)

/-- Control flow of a Flask handler up to (and excluding) its vendor API
call.  The vendor client is invoked exactly in the `vendorCall` case;
`clientError` is a 4xx JSON response returned before the handler's
try-block, `caught` is an exception raised inside the try-block and turned
into a JSON error response by the `except` clause, and `unhandled` is an
exception raised outside any try-block (it escapes the handler and
surfaces as the framework's generic 500). -/
inductive HandlerStep where
  | clientError (status : Nat) (body : Json)
  | caught (status : Nat) (body : Json)
  | unhandled (msg : String)
  | vendorCall (payload : Json)

/-- Field-kind to vendor schema-fragment mapping of `create_table`
(main.py lines 42-49): `"title"`, `"rich_text"` and `"select"` map to the
corresponding empty fragment, anything else falls back to a rich-text
fragment. -/
def create_table_fragment (ftype : Json) : Json :=
  if ftype.isStr "title" then Json.obj [("title", Json.obj [])]
  else if ftype.isStr "rich_text" then Json.obj [("rich_text", Json.obj [])]
  else if ftype.isStr "select" then Json.obj [("select", Json.obj [])]
  else Json.obj [("rich_text", Json.obj [])]

/-- Field-kind to vendor schema-fragment mapping of `update_table`
(main.py lines 115-122): identical to `create_table_fragment` except that
the select fragment carries an empty options list. -/
def update_table_fragment (ftype : Json) : Json :=
  if ftype.isStr "title" then Json.obj [("title", Json.obj [])]
  else if ftype.isStr "rich_text" then Json.obj [("rich_text", Json.obj [])]
  else if ftype.isStr "select" then Json.obj [("select", Json.obj [("options", Json.arr [])])]
  else Json.obj [("rich_text", Json.obj [])]

/-- Properties dict built by `create_table` (main.py lines 40-52): map
every declared field through `create_table_fragment`, then, when no
fragment has a `"title"` key, assign `properties["Name"] = {"title": {}}`
(a dict assignment, so an existing `"Name"` binding is overwritten). -/
def create_table_properties (fields : List (String × Json)) : List (String × Json) :=
  let properties := fields.foldl (fun acc p => dictSet acc p.1 (create_table_fragment p.2)) []
  if properties.any (fun p => p.2.hasKey "title") then properties
  else dictSet properties "Name" (Json.obj [("title", Json.obj [])])

/-- Properties dict built by `update_table` (main.py lines 112-122): map
every declared field through `update_table_fragment`; no title post-pass. -/
def update_table_properties (new_fields : List (String × Json)) : List (String × Json) :=
  new_fields.foldl (fun acc p => dictSet acc p.1 (update_table_fragment p.2)) []

/-- Python `str.lower`, modelled for ASCII strings (the field names the
handlers branch on are ASCII). -/
def strLower (s : String) : String := String.mk (s.data.map Char.toLower)

/-- Row-value encoder of `insert_row` (main.py lines 81-86), branching on
the lower-cased field name: `"tree"` becomes a title value, `"status"` a
single-select value naming the scalar, everything else a rich-text
value. -/
def insert_row_value (k : String) (v : Json) : Json :=
  if strLower k = "tree" then
    Json.obj [("title", Json.arr [Json.obj [("text", Json.obj [("content", v)])]])]
  else if strLower k = "status" then
    Json.obj [("select", Json.obj [("name", v)])]
  else
    Json.obj [("rich_text", Json.arr [Json.obj [("text", Json.obj [("content", v)])]])]

/-- Properties dict built by `insert_row` (main.py lines 79-86). -/
def insert_row_properties (values : List (String × Json)) : List (String × Json) :=
  values.foldl (fun acc p => dictSet acc p.1 (insert_row_value p.1 p.2)) []

/-- Per-property row decoder of `get_rows` (main.py lines 156-164),
branching on the vendor value's declared `"type"`: title and rich-text
take the first run's `text.content` when the run list is truthy and the
empty string otherwise; select takes the selected option's `name` when the
select payload is truthy and the empty string otherwise; every other kind
yields the sentinel `"[unsupported type]"`.  Subscripting a missing key is
a `KeyError`, i.e. an `Except.error`, exactly as in Python. -/
def get_rows_decode_value (value : Json) : Except String Json := do
  let t ← value.sub "type"
  if t.isStr "title" then
    let runs ← value.sub "title"
    if runs.truthy then
      let r ← runs.head
      let tx ← r.sub "text"
      tx.sub "content"
    else pure (Json.str "")
  else if t.isStr "rich_text" then
    let runs ← value.sub "rich_text"
    if runs.truthy then
      let r ← runs.head
      let tx ← r.sub "text"
      tx.sub "content"
    else pure (Json.str "")
  else if t.isStr "select" then
    let sel ← value.sub "select"
    if sel.truthy then sel.sub "name"
    else pure (Json.str "")
  else pure (Json.str "[unsupported type]")

/-- Row decoder of `get_rows` (main.py lines 154-164): decode every
property of a vendor property map into the `row` dict; a `KeyError`
raised by `get_rows_decode_value` propagates (it is caught only by the
handler's outer `except`, which answers 500). -/
def get_rows_decode_row (props : List (String × Json)) :
    Except String (List (String × Json)) :=
  props.foldlM (fun row p => do
    let s ← get_rows_decode_value p.2
    pure (dictSet row p.1 s)) []

/-- Validation and payload construction of `create_table` (main.py lines
32-59) on the parsed request body: a falsy parse result is replaced by an
empty dict (`request.get_json(force=True) or {}`); missing or falsy
`table`/`fields` answer 400 before the try-block; otherwise the fields are
mapped through `create_table_properties` and the `notion.databases.create`
payload is built with the configured parent page. -/
def create_table_step (parsed : Json) (pageId : String) : HandlerStep :=
  let data := if parsed.truthy then parsed else Json.obj []
  match data.pyGet "table", data.pyGet "fields" with
  | .error m, _ => .unhandled m
  | .ok _, .error m => .unhandled m
  | .ok table_name, .ok fields =>
    if !table_name.truthy || !fields.truthy then
      .clientError 400 (Json.obj [("error", Json.str "Missing table name or fields")])
    else
      match fields with
      | .obj fs =>
        .vendorCall (Json.obj
          [("parent", Json.obj [("type", Json.str "page_id"), ("page_id", Json.str pageId)]),
           ("title", Json.arr [Json.obj [("type", Json.str "text"),
              ("text", Json.obj [("content", table_name)])]]),
           ("properties", Json.obj (create_table_properties fs))])
      | _ => .caught 500 (Json.obj [("error", Json.str "AttributeError: no attribute items")])

/-- Response assembly of `create_table` (main.py lines 61-67) from the
outcome propagated by `safe_notion_call`: a success answers 200 with the
created database's id, an exception is caught and answered as 500 with the
exception's message. -/
def create_table_finish (db : Except String Json) : Nat × Json :=
  match db with
  | .error e => (500, Json.obj [("error", Json.str e)])
  | .ok d =>
    match d.sub "id" with
    | .ok v => (200, Json.obj [("message", Json.str "OK"), ("database_id", v)])
    | .error m => (500, Json.obj [("error", Json.str m)])

/-- Validation and payload construction of `insert_row` (main.py lines
71-92) on the parsed request body; note that unlike `create_table` there
is no `or {}` guard, so `.get` on a falsy non-dict parse result (for
example the body `null`) raises an unhandled `AttributeError`. -/
def insert_row_step (parsed : Json) : HandlerStep :=
  match parsed.pyGet "database_id", parsed.pyGet "values" with
  | .error m, _ => .unhandled m
  | .ok _, .error m => .unhandled m
  | .ok db_id, .ok values =>
    if !db_id.truthy || !values.truthy then
      .clientError 400 (Json.obj [("error", Json.str "Missing database_id or values")])
    else
      match values with
      | .obj vs =>
        .vendorCall (Json.obj
          [("parent", Json.obj [("database_id", db_id)]),
           ("properties", Json.obj (insert_row_properties vs))])
      | _ => .caught 500 (Json.obj [("error", Json.str "AttributeError: no attribute items")])

/-- Validation and payload construction of `update_table` (main.py lines
104-128) on the parsed request body; like `insert_row` it has no `or {}`
guard on the parse result. -/
def update_table_step (parsed : Json) : HandlerStep :=
  match parsed.pyGet "database_id", parsed.pyGet "fields" with
  | .error m, _ => .unhandled m
  | .ok _, .error m => .unhandled m
  | .ok db_id, .ok new_fields =>
    if !db_id.truthy || !new_fields.truthy then
      .clientError 400 (Json.obj [("error", Json.str "Missing database_id or fields")])
    else
      match new_fields with
      | .obj fs =>
        .vendorCall (Json.obj
          [("database_id", db_id),
           ("properties", Json.obj (update_table_properties fs))])
      | _ => .caught 500 (Json.obj [("error", Json.str "AttributeError: no attribute items")])

/-- Validation and query construction of `get_rows` (main.py lines
140-148) on the parsed request body; no `or {}` guard on the parse
result. -/
def get_rows_step (parsed : Json) : HandlerStep :=
  match parsed.pyGet "database_id" with
  | .error m => .unhandled m
  | .ok db_id =>
    if !db_id.truthy then
      .clientError 400 (Json.obj [("error", Json.str "Missing database_id")])
    else
      .vendorCall (Json.obj [("database_id", db_id)])

/-- Modelled from the spec: the vendor (the Notion API, an external
collaborator outside this repository) stores a property value created from
a one-key payload such as `{"title": [...]}` and, when the page is later
queried, returns that property tagged with its declared value kind, here
`{"type": "title", "title": [...]}`.  This is the "resulting stored
properties" step of the spec's round-trip property. -/
def vendorStore : Json → Json
  | Json.obj [(tag, payload)] => Json.obj [("type", Json.str tag), (tag, payload)]
  | j => j

/-- Concrete operation failing on both attempts, for the retry witness. -/
def twoFailuresFunc : Nat → Except String Json := fun n =>
  if n = 0 then .error "first failure" else .error "second failure"

/-- Concrete operation failing once then succeeding, for the retry witness. -/
def failThenOkFunc : Nat → Except String Json := fun n =>
  if n = 0 then .error "first failure" else .ok (Json.obj [("id", Json.str "db1")])

/-- Shape of the run-list payload of a vendor title or rich-text property
as the decoder consumes it: either no runs, or a first run carrying string
text content. -/
def wellShapedRuns (o : Option Json) : Bool :=
  match o with
  | some (Json.arr []) => true
  | some (Json.arr (Json.obj rf :: _)) =>
    match assocFind rf "text" with
    | some (Json.obj tf) =>
      match assocFind tf "content" with
      | some (Json.str _) => true
      | _ => false
    | _ => false
  | _ => false

/-- Vendor-shaped property value: a dict carrying a `"type"` tag whose
type-named sub-field (the one the decoder subscripts) is present and
well-formed; properties of unrecognised kinds need no sub-field since the
decoder only answers the sentinel for them. -/
def wellShapedValue (value : Json) : Bool :=
  match value with
  | .obj fs =>
    match assocFind fs "type" with
    | some t =>
      if t.isStr "title" then wellShapedRuns (assocFind fs "title")
      else if t.isStr "rich_text" then wellShapedRuns (assocFind fs "rich_text")
      else if t.isStr "select" then
        match assocFind fs "select" with
        | some Json.null => true
        | some (Json.obj []) => true
        | some (Json.obj sel) =>
          match assocFind sel "name" with
          | some (Json.str _) => true
          | _ => false
        | _ => false
      else true
    | none => false
  | _ => false

section Helpers

theorem assocFind_append_left_none (a b : List (String × Json)) (k : String)
    (h : assocFind a k = none) : assocFind (a ++ b) k = assocFind b k := by
  induction a with
  | nil => rfl
  | cons p rest ih =>
    obtain ⟨pk, pv⟩ := p
    simp only [assocFind] at h ⊢
    by_cases hk : pk = k
    · simp [hk] at h
    · simp only [hk, if_false] at h ⊢
      exact ih h

theorem dictSet_of_not_found (d : List (String × Json)) (k : String) (v : Json)
    (h : assocFind d k = none) : dictSet d k v = d ++ [(k, v)] := by
  simp [dictSet, h]

/-- A fold of Python dict assignments over fresh, pairwise-distinct keys is
a plain append of the mapped bindings. -/
theorem foldl_dictSet_eq_append (f : String × Json → Json) :
    ∀ (fields acc : List (String × Json)),
      (∀ p ∈ fields, assocFind acc p.1 = none) →
      (fields.map Prod.fst).Nodup →
      fields.foldl (fun d p => dictSet d p.1 (f p)) acc =
        acc ++ fields.map (fun p => (p.1, f p)) := by
  intro fields
  induction fields with
  | nil => intro acc _ _; simp
  | cons p rest ih =>
    intro acc hfresh hnod
    obtain ⟨pk, pv⟩ := p
    simp only [List.map_cons, List.nodup_cons] at hnod
    have hpk : assocFind acc pk = none := hfresh (pk, pv) (by simp)
    simp only [List.foldl_cons, dictSet_of_not_found _ _ _ hpk]
    rw [ih (acc ++ [(pk, f (pk, pv))])]
    · simp
    · intro q hq
      rw [assocFind_append_left_none _ _ _ (hfresh q (by simp [hq]))]
      have hne : pk ≠ q.1 := by
        intro hcontra
        exact hnod.1 (hcontra ▸ (List.mem_map.2 ⟨q, hq, rfl⟩))
      simp [assocFind, hne]
    · exact hnod.2

end Helpers

/-- One unfolding of `safe_notion_call`, stated as an equation so proofs
can rewrite a single step without looping. -/
theorem safe_notion_call_step {A : Type} (func : Nat → Except String A)
    (retries delay attempt : Nat) :
    safe_notion_call func retries delay attempt =
      match func attempt with
      | .ok result => (.ok result, 1, 0)
      | .error e =>
        match retries with
        | 0 => (.error e, 1, 0)
        | r + 1 =>
          let rest := safe_notion_call func r delay (attempt + 1)
          (rest.1, rest.2.1 + 1, rest.2.2 + 1) := by
  rw [safe_notion_call]

/-- C10: `safe_notion_call` terminates for every non-negative retry count
(it is a total function in this embedding, the recursion decreasing
`retries`); the wrapped operation is invoked at least once and at most
`retries + 1` times, and the sleep is performed at most `retries` times. -/
theorem safe_notion_call_bounded :
    ∀ (func : Nat → Except String Json) (retries delay attempt : Nat),
      1 ≤ (safe_notion_call func retries delay attempt).2.1 ∧
      (safe_notion_call func retries delay attempt).2.1 ≤ retries + 1 ∧
      (safe_notion_call func retries delay attempt).2.2 ≤ retries := by
  intro func retries
  induction retries with
  | zero =>
    intro delay attempt
    cases h : func attempt <;> simp [safe_notion_call, h]
  | succ r ih =>
    intro delay attempt
    cases h : func attempt with
    | ok a => simp [safe_notion_call, h]
    | error e =>
      obtain ⟨a1, a2, a3⟩ := ih delay (attempt + 1)
      rw [safe_notion_call_step, h]
      dsimp only
      refine ⟨by omega, by omega, by omega⟩

/-- C1: with `retries = 1` (and the fixed `delay = 2` of the code),
`safe_notion_call` invokes the operation; when the first attempt fails it
sleeps once and invokes the operation exactly once more; when the second
attempt also fails with `e2`, the propagated outcome is exactly that
second failure, and `create_table`'s response handling turns it into a 500
carrying `e2`'s message; when the second attempt succeeds, the handler
responds 200. -/
theorem safe_notion_call_retry_once (func : Nat → Except String Json) (e1 : String)
    (h1 : func 0 = .error e1) :
    (∀ e2, func 1 = .error e2 →
        safe_notion_call func 1 2 0 = (.error e2, 2, 1) ∧
        create_table_finish (safe_notion_call func 1 2 0).1 =
          (500, Json.obj [("error", Json.str e2)])) ∧
    (∀ db v, func 1 = .ok db → db.sub "id" = .ok v →
        safe_notion_call func 1 2 0 = (.ok db, 2, 1) ∧
        (create_table_finish (safe_notion_call func 1 2 0).1).1 = 200) := by
  constructor
  · intro e2 h2
    simp [safe_notion_call, h1, h2, create_table_finish]
  · intro db v h2 hid
    simp [safe_notion_call, h1, h2, create_table_finish, hid]

theorem safe_notion_call_retry_once_witness :
    (safe_notion_call twoFailuresFunc 1 2 0 = (.error "second failure", 2, 1) ∧
      create_table_finish (safe_notion_call twoFailuresFunc 1 2 0).1 =
        (500, Json.obj [("error", Json.str "second failure")])) ∧
    (safe_notion_call failThenOkFunc 1 2 0 = (.ok (Json.obj [("id", Json.str "db1")]), 2, 1) ∧
      (create_table_finish (safe_notion_call failThenOkFunc 1 2 0).1).1 = 200) := by
  constructor
  · exact (safe_notion_call_retry_once twoFailuresFunc "first failure" rfl).1
      "second failure" rfl
  · exact (safe_notion_call_retry_once failThenOkFunc "first failure" rfl).2
      (Json.obj [("id", Json.str "db1")]) (Json.str "db1") rfl rfl

/-- C3 counterexample: the declared kind `"single-select"` — the spelling
the claim uses — is not recognised by either mapper; it falls through to
the default arm and is coerced to a rich-text fragment, which is not a
select fragment. -/
theorem fragment_single_select_cex :
    create_table_fragment (Json.str "single-select") = Json.obj [("rich_text", Json.obj [])] ∧
    update_table_fragment (Json.str "single-select") = Json.obj [("rich_text", Json.obj [])] ∧
    Json.obj [("rich_text", Json.obj [])] ≠ Json.obj [("select", Json.obj [])] ∧
    Json.obj [("rich_text", Json.obj [])] ≠
      Json.obj [("select", Json.obj [("options", Json.arr [])])] := by
  refine ⟨rfl, rfl, by simp, by simp⟩

/-- C3 (amended): the mappers used by `create_table` and `update_table`
recognise exactly the literal kinds `"title"`, `"rich_text"` and
`"select"`; every other declared kind — including the spellings
`"rich text"` and `"single-select"` — is coerced to a rich-text fragment,
never rejected, and in the update path the select fragment additionally
carries an empty options list. -/
theorem fragment_mapping :
    create_table_fragment (Json.str "title") = Json.obj [("title", Json.obj [])] ∧
    create_table_fragment (Json.str "rich_text") = Json.obj [("rich_text", Json.obj [])] ∧
    create_table_fragment (Json.str "select") = Json.obj [("select", Json.obj [])] ∧
    update_table_fragment (Json.str "title") = Json.obj [("title", Json.obj [])] ∧
    update_table_fragment (Json.str "rich_text") = Json.obj [("rich_text", Json.obj [])] ∧
    update_table_fragment (Json.str "select") =
      Json.obj [("select", Json.obj [("options", Json.arr [])])] ∧
    (∀ t : String, t ≠ "title" → t ≠ "rich_text" → t ≠ "select" →
      create_table_fragment (Json.str t) = Json.obj [("rich_text", Json.obj [])] ∧
      update_table_fragment (Json.str t) = Json.obj [("rich_text", Json.obj [])]) := by
  refine ⟨rfl, rfl, rfl, rfl, rfl, rfl, ?_⟩
  intro t h1 h2 h3
  constructor <;>
    simp [create_table_fragment, update_table_fragment, Json.isStr, h1, h2, h3]

theorem fragment_mapping_witness :
    create_table_fragment (Json.str "checkbox") = Json.obj [("rich_text", Json.obj [])] ∧
    update_table_fragment (Json.str "checkbox") = Json.obj [("rich_text", Json.obj [])] :=
  fragment_mapping.2.2.2.2.2.2 "checkbox" (by decide) (by decide) (by decide)

/-- C8: the row-value encoder of `insert_row` branches on the field name
case-insensitively: a field lower-casing to `"tree"` encodes to a title
value wrapping the scalar, one lower-casing to `"status"` encodes to a
single-select value naming the scalar as the selected option, and any
other field encodes to a rich-text value wrapping the scalar. -/
theorem insert_row_value_cases :
    ∀ (k : String) (v : Json),
      (strLower k = "tree" →
        insert_row_value k v =
          Json.obj [("title", Json.arr [Json.obj [("text", Json.obj [("content", v)])]])]) ∧
      (strLower k = "status" →
        insert_row_value k v = Json.obj [("select", Json.obj [("name", v)])]) ∧
      (strLower k ≠ "tree" → strLower k ≠ "status" →
        insert_row_value k v =
          Json.obj [("rich_text", Json.arr [Json.obj [("text", Json.obj [("content", v)])]])]) := by
  intro k v
  refine ⟨fun h => ?_, fun h => ?_, fun h1 h2 => ?_⟩
  · simp [insert_row_value, h]
  · simp [insert_row_value, h]
  · simp [insert_row_value, h1, h2]

theorem insert_row_value_cases_witness :
    insert_row_value "Tree" (Json.str "Oak") =
      Json.obj [("title", Json.arr [Json.obj [("text", Json.obj [("content", Json.str "Oak")])]])] ∧
    insert_row_value "status" (Json.str "Done") =
      Json.obj [("select", Json.obj [("name", Json.str "Done")])] ∧
    insert_row_value "Notes" (Json.str "x") =
      Json.obj [("rich_text", Json.arr [Json.obj [("text", Json.obj [("content", Json.str "x")])]])] :=
  ⟨(insert_row_value_cases "Tree" (Json.str "Oak")).1 (by decide),
   (insert_row_value_cases "status" (Json.str "Done")).2.1 (by decide),
   (insert_row_value_cases "Notes" (Json.str "x")).2.2 (by decide) (by decide)⟩

section SchemaLemmas

theorem assocFind_eq_none (d : List (String × Json)) (k : String)
    (h : k ∉ d.map Prod.fst) : assocFind d k = none := by
  induction d with
  | nil => rfl
  | cons p rest ih =>
    simp only [List.map_cons, List.mem_cons, not_or] at h
    have hne : p.1 ≠ k := fun hc => h.1 hc.symm
    simp [assocFind, hne, ih h.2]

/-- A create-table fragment carries a `"title"` key exactly when the
declared kind is the literal `"title"`. -/
theorem create_table_fragment_hasKey (t : Json) :
    (create_table_fragment t).hasKey "title" = t.isStr "title" := by
  by_cases h1 : t.isStr "title"
  · simp [create_table_fragment, h1, Json.hasKey, assocFind]
  · by_cases h2 : t.isStr "rich_text"
    · simp [create_table_fragment, h1, h2, Json.hasKey, assocFind]
    · by_cases h3 : t.isStr "select"
      · simp [create_table_fragment, h1, h2, h3, Json.hasKey, assocFind]
      · simp [create_table_fragment, h1, h2, h3, Json.hasKey, assocFind]

theorem any_hasKey_map (fields : List (String × Json)) :
    (fields.map (fun p => (p.1, create_table_fragment p.2))).any
        (fun p => p.2.hasKey "title") =
      fields.any (fun p => p.2.isStr "title") := by
  induction fields with
  | nil => rfl
  | cons p rest ih => simp [ih, create_table_fragment_hasKey]

/-- On a schema request with pairwise-distinct field names (as delivered
by JSON parsing), the properties dict of `create_table` is the mapped
field list, post-passed with the `"Name"` assignment when no declared
field resolves to the title kind. -/
theorem create_table_properties_eq (fields : List (String × Json))
    (hnod : (fields.map Prod.fst).Nodup) :
    create_table_properties fields =
      if fields.any (fun p => p.2.isStr "title") then
        fields.map (fun p => (p.1, create_table_fragment p.2))
      else
        dictSet (fields.map (fun p => (p.1, create_table_fragment p.2))) "Name"
          (Json.obj [("title", Json.obj [])]) := by
  simp only [create_table_properties]
  rw [foldl_dictSet_eq_append (fun p => create_table_fragment p.2) fields []
    (fun p _ => rfl) hnod]
  simp only [List.nil_append]
  rw [any_hasKey_map]

end SchemaLemmas

/-- C2 counterexample: a create-collection request declaring no title
field but declaring a field that is itself named `"Name"`: the post-pass
assignment `properties["Name"] = {"title": {}}` overwrites the declared
field's rich-text fragment, so the declared field is lost rather than kept
in addition to the synthesized title field. -/
theorem create_table_properties_overwrite_cex :
    create_table_properties [("Name", Json.str "rich_text")] =
      [("Name", Json.obj [("title", Json.obj [])])] ∧
    Json.obj [("title", Json.obj [])] ≠ Json.obj [("rich_text", Json.obj [])] :=
  ⟨rfl, by simp⟩

/-- C2 (amended): for every create-collection schema request with
pairwise-distinct field names in which no field is declared with kind
`"title"` and no field is named `"Name"`, the schema sent to the vendor
is exactly the declared fields (each mapped to its fragment) followed by a
synthesized `"Name"` field of title kind, and that synthesized field is
the only title-kind field; when a declared field is itself named
`"Name"`, the post-pass overwrites it instead. -/
theorem create_table_properties_no_title (fields : List (String × Json))
    (hnod : (fields.map Prod.fst).Nodup)
    (hnotitle : ∀ p ∈ fields, p.2.isStr "title" = false)
    (hname : "Name" ∉ fields.map Prod.fst) :
    create_table_properties fields =
      fields.map (fun p => (p.1, create_table_fragment p.2)) ++
        [("Name", Json.obj [("title", Json.obj [])])] ∧
    (create_table_properties fields).filter (fun p => p.2.hasKey "title") =
      [("Name", Json.obj [("title", Json.obj [])])] := by
  have hany : fields.any (fun p => p.2.isStr "title") = false := by
    rw [List.any_eq_false]
    intro p hp
    simp [hnotitle p hp]
  have hkeys : (fields.map (fun p => (p.1, create_table_fragment p.2))).map Prod.fst =
      fields.map Prod.fst := by
    simp [List.map_map, Function.comp]
  have hfind : assocFind (fields.map (fun p => (p.1, create_table_fragment p.2))) "Name" =
      none := assocFind_eq_none _ _ (by rw [hkeys]; exact hname)
  have heq : create_table_properties fields =
      fields.map (fun p => (p.1, create_table_fragment p.2)) ++
        [("Name", Json.obj [("title", Json.obj [])])] := by
    rw [create_table_properties_eq fields hnod, if_neg (by simp [hany]),
      dictSet_of_not_found _ _ _ hfind]
  refine ⟨heq, ?_⟩
  rw [heq, List.filter_append]
  have hnil : (fields.map (fun p => (p.1, create_table_fragment p.2))).filter
      (fun p => p.2.hasKey "title") = [] := by
    rw [List.filter_eq_nil_iff]
    intro a ha
    obtain ⟨p, hp, rfl⟩ := List.mem_map.1 ha
    simp [create_table_fragment_hasKey, hnotitle p hp]
  rw [hnil]
  simp [Json.hasKey, assocFind]

theorem create_table_properties_no_title_witness :
    create_table_properties [("Notes", Json.str "rich_text"), ("Status", Json.str "select")] =
      [("Notes", Json.obj [("rich_text", Json.obj [])]),
       ("Status", Json.obj [("select", Json.obj [])]),
       ("Name", Json.obj [("title", Json.obj [])])] ∧
    (create_table_properties
        [("Notes", Json.str "rich_text"), ("Status", Json.str "select")]).filter
      (fun p => p.2.hasKey "title") = [("Name", Json.obj [("title", Json.obj [])])] := by
  have h := create_table_properties_no_title
    [("Notes", Json.str "rich_text"), ("Status", Json.str "select")]
    (by simp) (by decide) (by decide)
  exact ⟨h.1, h.2⟩

theorem filter_hasKey_map_length (fields : List (String × Json)) :
    ((fields.map (fun p => (p.1, create_table_fragment p.2))).filter
        (fun p => p.2.hasKey "title")).length =
      (fields.filter (fun p => p.2.isStr "title")).length := by
  induction fields with
  | nil => rfl
  | cons p rest ih =>
    simp only [List.map_cons, List.filter_cons, create_table_fragment_hasKey]
    cases h : p.2.isStr "title" <;> simp [h, ih]

theorem filter_title_map_replace (d : List (String × Json))
    (hall : ∀ p ∈ d, p.2.hasKey "title" = false)
    (hnod : (d.map Prod.fst).Nodup)
    (hmem : (assocFind d "Name").isSome = true) :
    ((d.map (fun p => if p.1 = "Name" then ("Name", Json.obj [("title", Json.obj [])]) else p)).filter
        (fun p => p.2.hasKey "title")).length = 1 := by
  induction d with
  | nil => simp [assocFind] at hmem
  | cons q rest ih =>
    simp only [List.map_cons, List.nodup_cons] at hnod
    by_cases hq : q.1 = "Name"
    · have hrest : ∀ p ∈ rest, p.1 ≠ "Name" := by
        intro p hp hc
        exact hnod.1 (List.mem_map.2 ⟨p, hp, hc.trans hq.symm⟩)
      have hfil : ((rest.map (fun p =>
          if p.1 = "Name" then ("Name", Json.obj [("title", Json.obj [])]) else p)).filter
            (fun p => p.2.hasKey "title")) = [] := by
        rw [List.filter_eq_nil_iff]
        intro a ha
        obtain ⟨p, hp, rfl⟩ := List.mem_map.1 ha
        rw [if_neg (hrest p hp)]
        simp [hall p (List.mem_cons_of_mem _ hp)]
      have hhead : (Json.obj [("title", Json.obj [])]).hasKey "title" = true := by
        simp [Json.hasKey, assocFind]
      simp only [List.map_cons, if_pos hq, List.filter_cons, hhead, if_true]
      rw [hfil]
      rfl
    · have hmem' : (assocFind rest "Name").isSome = true := by
        simpa [assocFind, hq] using hmem
      have h1 := hall q (by simp)
      simp only [List.map_cons, if_neg hq, List.filter_cons, h1]
      simpa using ih (fun p hp => hall p (List.mem_cons_of_mem _ hp)) hnod.2 hmem'

theorem filter_title_dictSet_name (d : List (String × Json))
    (hall : ∀ p ∈ d, p.2.hasKey "title" = false)
    (hnod : (d.map Prod.fst).Nodup) :
    ((dictSet d "Name" (Json.obj [("title", Json.obj [])])).filter
        (fun p => p.2.hasKey "title")).length = 1 := by
  cases hfind : (assocFind d "Name").isSome with
  | false =>
    rw [dictSet_of_not_found _ _ _ (by simpa using hfind), List.filter_append,
      List.filter_eq_nil_iff.2 (fun a ha => by simp [hall a ha])]
    simp [Json.hasKey, assocFind]
  | true =>
    unfold dictSet
    rw [if_pos (by simp [hfind])]
    exact filter_title_map_replace d hall hnod hfind

/-- C4 counterexample: a create-collection request declaring two title
fields produces a final schema with two title-kind fields, not exactly
one; the post-pass only repairs the zero-title case. -/
theorem create_table_properties_two_titles_cex :
    ((create_table_properties [("A", Json.str "title"), ("B", Json.str "title")]).filter
        (fun p => p.2.hasKey "title")).length = 2 := rfl

/-- C4 (amended): for every create-collection request with
pairwise-distinct field names that declares at most one field of kind
`"title"`, the final schema contains exactly one title-kind field (the
synthesized `"Name"` field when none is declared); a request declaring
`k ≥ 2` title fields instead yields `k` title-kind fields. -/
theorem create_table_title_invariant (fields : List (String × Json))
    (hnod : (fields.map Prod.fst).Nodup)
    (hle : (fields.filter (fun p => p.2.isStr "title")).length ≤ 1) :
    ((create_table_properties fields).filter (fun p => p.2.hasKey "title")).length = 1 := by
  rw [create_table_properties_eq fields hnod]
  cases hany : fields.any (fun p => p.2.isStr "title") with
  | true =>
    rw [if_pos (by simp [hany]), filter_hasKey_map_length]
    obtain ⟨p, hp, hptitle⟩ := List.any_eq_true.1 hany
    have hmem : p ∈ fields.filter (fun p => p.2.isStr "title") :=
      List.mem_filter.2 ⟨hp, hptitle⟩
    have hpos := List.length_pos_of_mem hmem
    omega
  | false =>
    rw [if_neg (by simp [hany])]
    apply filter_title_dictSet_name
    · intro p hp
      obtain ⟨q, hq, rfl⟩ := List.mem_map.1 hp
      have hfalse := List.any_eq_false.1 hany q hq
      rw [create_table_fragment_hasKey]
      simpa using hfalse
    · simpa [List.map_map, Function.comp] using hnod

theorem create_table_title_invariant_witness :
    ((create_table_properties [("Task", Json.str "title")]).filter
        (fun p => p.2.hasKey "title")).length = 1 :=
  create_table_title_invariant [("Task", Json.str "title")] (by simp) (by decide)

theorem get_rows_decode_value_wellshaped (value : Json)
    (h : wellShapedValue value = true) :
    ∃ s : String, get_rows_decode_value value = .ok (Json.str s) := by
  cases value with
  | null => simp [wellShapedValue] at h
  | bool b => simp [wellShapedValue] at h
  | num n => simp [wellShapedValue] at h
  | str s => simp [wellShapedValue] at h
  | arr xs => simp [wellShapedValue] at h
  | obj fs =>
    simp only [wellShapedValue] at h
    rcases htype : assocFind fs "type" with _ | t
    · rw [htype] at h; simp at h
    rw [htype] at h
    dsimp only at h
    have hsubtype : (Json.obj fs).sub "type" = .ok t := by simp [Json.sub, htype]
    by_cases h1 : t.isStr "title" = true
    · rw [if_pos h1] at h
      rcases hruns : assocFind fs "title" with _ | runs
      · rw [hruns] at h; simp [wellShapedRuns] at h
      rw [hruns] at h
      have hsubruns : (Json.obj fs).sub "title" = .ok runs := by simp [Json.sub, hruns]
      cases runs with
      | arr elems =>
        cases elems with
        | nil =>
          exact ⟨"", by simp [get_rows_decode_value, hsubtype, hsubruns, h1,
            Json.truthy, Bind.bind, Except.bind, pure, Except.pure]⟩
        | cons r rs =>
          cases r with
          | obj rf =>
            simp only [wellShapedRuns] at h
            rcases htext : assocFind rf "text" with _ | tx
            · rw [htext] at h; simp at h
            rw [htext] at h
            cases tx with
            | obj tf =>
              dsimp only at h
              rcases hcontent : assocFind tf "content" with _ | c
              · rw [hcontent] at h; simp at h
              rw [hcontent] at h
              cases c with
              | str s =>
                refine ⟨s, ?_⟩
                simp [get_rows_decode_value, htype, hruns, hsubtype, hsubruns, h1,
                  Json.truthy, Json.head, Json.sub, htext, hcontent,
                  Bind.bind, Except.bind, pure, Except.pure]
              | null => simp at h
              | bool b => simp at h
              | num n => simp at h
              | arr xs => simp at h
              | obj fs2 => simp at h
            | null => simp at h
            | bool b => simp at h
            | num n => simp at h
            | str s2 => simp at h
            | arr xs => simp at h
          | null => simp [wellShapedRuns] at h
          | bool b => simp [wellShapedRuns] at h
          | num n => simp [wellShapedRuns] at h
          | str s2 => simp [wellShapedRuns] at h
          | arr xs => simp [wellShapedRuns] at h
      | null => simp [wellShapedRuns] at h
      | bool b => simp [wellShapedRuns] at h
      | num n => simp [wellShapedRuns] at h
      | str s2 => simp [wellShapedRuns] at h
      | obj fs2 => simp [wellShapedRuns] at h
    · rw [if_neg h1] at h
      by_cases h2 : t.isStr "rich_text" = true
      · rw [if_pos h2] at h
        rcases hruns : assocFind fs "rich_text" with _ | runs
        · rw [hruns] at h; simp [wellShapedRuns] at h
        rw [hruns] at h
        have hsubruns : (Json.obj fs).sub "rich_text" = .ok runs := by simp [Json.sub, hruns]
        cases runs with
        | arr elems =>
          cases elems with
          | nil =>
            exact ⟨"", by simp [get_rows_decode_value, hsubtype, hsubruns, h1, h2,
              Json.truthy, Bind.bind, Except.bind, pure, Except.pure]⟩
          | cons r rs =>
            cases r with
            | obj rf =>
              simp only [wellShapedRuns] at h
              rcases htext : assocFind rf "text" with _ | tx
              · rw [htext] at h; simp at h
              rw [htext] at h
              cases tx with
              | obj tf =>
                dsimp only at h
                rcases hcontent : assocFind tf "content" with _ | c
                · rw [hcontent] at h; simp at h
                rw [hcontent] at h
                cases c with
                | str s =>
                  refine ⟨s, ?_⟩
                  simp [get_rows_decode_value, htype, hruns, hsubtype, hsubruns, h1, h2,
                    Json.truthy, Json.head, Json.sub, htext, hcontent,
                    Bind.bind, Except.bind, pure, Except.pure]
                | null => simp at h
                | bool b => simp at h
                | num n => simp at h
                | arr xs => simp at h
                | obj fs2 => simp at h
              | null => simp at h
              | bool b => simp at h
              | num n => simp at h
              | str s2 => simp at h
              | arr xs => simp at h
            | null => simp [wellShapedRuns] at h
            | bool b => simp [wellShapedRuns] at h
            | num n => simp [wellShapedRuns] at h
            | str s2 => simp [wellShapedRuns] at h
            | arr xs => simp [wellShapedRuns] at h
        | null => simp [wellShapedRuns] at h
        | bool b => simp [wellShapedRuns] at h
        | num n => simp [wellShapedRuns] at h
        | str s2 => simp [wellShapedRuns] at h
        | obj fs2 => simp [wellShapedRuns] at h
      · rw [if_neg h2] at h
        by_cases h3 : t.isStr "select" = true
        · rw [if_pos h3] at h
          rcases hsel : assocFind fs "select" with _ | sel
          · rw [hsel] at h; simp at h
          rw [hsel] at h
          have hsubsel : (Json.obj fs).sub "select" = .ok sel := by simp [Json.sub, hsel]
          cases sel with
          | null =>
            exact ⟨"", by simp [get_rows_decode_value, hsubtype, hsubsel, h1, h2, h3,
              Json.truthy, Bind.bind, Except.bind, pure, Except.pure]⟩
          | obj fsel =>
            cases fsel with
            | nil =>
              exact ⟨"", by simp [get_rows_decode_value, hsubtype, hsubsel, h1, h2, h3,
                Json.truthy, Bind.bind, Except.bind, pure, Except.pure]⟩
            | cons q qs =>
              dsimp only at h
              rcases hname : assocFind (q :: qs) "name" with _ | c
              · rw [hname] at h; simp at h
              rw [hname] at h
              cases c with
              | str s =>
                refine ⟨s, ?_⟩
                simp [get_rows_decode_value, htype, hsel, hsubtype, hsubsel, h1, h2, h3,
                  Json.truthy, Json.sub, hname,
                  Bind.bind, Except.bind, pure, Except.pure]
              | null => simp at h
              | bool b => simp at h
              | num n => simp at h
              | arr xs => simp at h
              | obj fs2 => simp at h
          | bool b => simp at h
          | num n => simp at h
          | str s2 => simp at h
          | arr xs => simp at h
        · rw [if_neg h3] at h
          exact ⟨"[unsupported type]", by
            simp [get_rows_decode_value, hsubtype, h1, h2, h3,
              Bind.bind, Except.bind, pure, Except.pure]⟩

theorem get_rows_decode_row_wellshaped_aux :
    ∀ (props acc : List (String × Json)),
      (∀ p ∈ props, wellShapedValue p.2 = true) →
      ∃ row, props.foldlM (fun row p => do
          let s ← get_rows_decode_value p.2
          pure (dictSet row p.1 s)) acc = .ok row := by
  intro props
  induction props with
  | nil => intro acc _; exact ⟨acc, rfl⟩
  | cons p rest ih =>
    intro acc hall
    obtain ⟨s, hs⟩ := get_rows_decode_value_wellshaped p.2 (hall p (by simp))
    obtain ⟨row, hrow⟩ := ih (dictSet acc p.1 (Json.str s))
      (fun q hq => hall q (List.mem_cons_of_mem _ hq))
    refine ⟨row, ?_⟩
    rw [List.foldlM_cons, hs]
    exact hrow

/-- C5 counterexample: a property declaring type `"title"` but carrying no
`"title"` sub-field.  The decoder subscripts `value["title"]` before
testing truthiness, so the absent sub-field raises a `KeyError` instead of
decoding to the empty string (in `get_rows` this error is caught by the
outer `except` clause and answered as a 500, not decoded). -/
theorem get_rows_decode_missing_subfield_cex :
    get_rows_decode_value (Json.obj [("type", Json.str "title")]) =
      .error "KeyError: title" ∧
    get_rows_decode_row [("Tree", Json.obj [("type", Json.str "title")])] =
      .error "KeyError: title" :=
  ⟨rfl, rfl⟩

/-- C5 (amended): the row decoder is total on vendor-shaped property maps
(every property carries its type-named sub-field with well-formed runs or
option payloads): it then returns a string for each property, with a
title or rich-text property with no runs decoding to the empty string, a
single-select property with no selected option decoding to the empty
string, and a property of any other kind decoding to the fixed sentinel
`"[unsupported type]"`; a property missing the sub-field named by its
type raises a key-lookup error instead. -/
theorem get_rows_decode_total_wellshaped :
    (∀ props : List (String × Json), (∀ p ∈ props, wellShapedValue p.2 = true) →
      ∃ row : List (String × Json), get_rows_decode_row props = .ok row) ∧
    (∀ value : Json, wellShapedValue value = true →
      ∃ s : String, get_rows_decode_value value = .ok (Json.str s)) ∧
    get_rows_decode_value (Json.obj [("type", Json.str "title"), ("title", Json.arr [])]) =
      .ok (Json.str "") ∧
    get_rows_decode_value
        (Json.obj [("type", Json.str "rich_text"), ("rich_text", Json.arr [])]) =
      .ok (Json.str "") ∧
    get_rows_decode_value (Json.obj [("type", Json.str "select"), ("select", Json.null)]) =
      .ok (Json.str "") ∧
    (∀ t : String, t ≠ "title" → t ≠ "rich_text" → t ≠ "select" →
      get_rows_decode_value (Json.obj [("type", Json.str t)]) =
        .ok (Json.str "[unsupported type]")) := by
  refine ⟨fun props hall => get_rows_decode_row_wellshaped_aux props [] hall,
    get_rows_decode_value_wellshaped, rfl, rfl, rfl, ?_⟩
  intro t h1 h2 h3
  simp [get_rows_decode_value, Json.sub, assocFind, Json.isStr, h1, h2, h3,
    Bind.bind, Except.bind, pure, Except.pure]

theorem get_rows_decode_total_wellshaped_witness :
    (∃ row : List (String × Json), get_rows_decode_row
        [("Tree", Json.obj [("type", Json.str "title"), ("title", Json.arr [])]),
         ("Status", Json.obj [("type", Json.str "select"), ("select", Json.null)])] =
      .ok row) ∧
    (∃ s : String, get_rows_decode_value
        (Json.obj [("type", Json.str "select"),
          ("select", Json.obj [("name", Json.str "Done")])]) = .ok (Json.str s)) ∧
    get_rows_decode_value (Json.obj [("type", Json.str "checkbox")]) =
      .ok (Json.str "[unsupported type]") :=
  ⟨get_rows_decode_total_wellshaped.1 _ (by decide),
   get_rows_decode_total_wellshaped.2.1 _ (by decide),
   get_rows_decode_total_wellshaped.2.2.2.2.2 "checkbox" (by decide) (by decide) (by decide)⟩

theorem except_ok_bind {A B : Type} (a : A) (f : A → Except String B) :
    (Except.ok a >>= f) = f a := rfl

theorem except_pure_bind {A B : Type} (a : A) (f : A → Except String B) :
    ((pure a : Except String A) >>= f) = f a := rfl

/-- Encoding one scalar with `insert_row`'s encoder, letting the vendor
store it (which tags it with its value kind), then decoding it with
`get_rows`'s decoder returns the original scalar, in each of the three
encoder branches. -/
theorem insert_value_roundtrip (k s : String) :
    get_rows_decode_value (vendorStore (insert_row_value k (Json.str s))) =
      .ok (Json.str s) := by
  by_cases h1 : strLower k = "tree"
  · simp [insert_row_value, h1, vendorStore, get_rows_decode_value, Json.sub, assocFind,
      Json.isStr, Json.truthy, Json.head, Bind.bind, Except.bind, pure, Except.pure]
  · by_cases h2 : strLower k = "status"
    · simp [insert_row_value, h1, h2, vendorStore, get_rows_decode_value, Json.sub,
        assocFind, Json.isStr, Json.truthy, Json.head,
        Bind.bind, Except.bind, pure, Except.pure]
    · simp [insert_row_value, h1, h2, vendorStore, get_rows_decode_value, Json.sub,
        assocFind, Json.isStr, Json.truthy, Json.head,
        Bind.bind, Except.bind, pure, Except.pure]

theorem insert_get_roundtrip_aux :
    ∀ (values : List (String × String)) (acc : List (String × Json)),
      (∀ p ∈ values, assocFind acc p.1 = none) →
      (values.map Prod.fst).Nodup →
      (values.map (fun p => (p.1, vendorStore (insert_row_value p.1 (Json.str p.2))))).foldlM
          (fun row p => do
            let s ← get_rows_decode_value p.2
            pure (dictSet row p.1 s)) acc =
        .ok (acc ++ values.map (fun p => (p.1, Json.str p.2))) := by
  intro values
  induction values with
  | nil => intro acc _ _; simp [pure, Except.pure]
  | cons p rest ih =>
    intro acc hfresh hnod
    simp only [List.map_cons, List.nodup_cons] at hnod
    rw [List.map_cons, List.foldlM_cons]
    dsimp only
    rw [insert_value_roundtrip p.1 p.2, except_ok_bind, except_pure_bind,
      dictSet_of_not_found _ _ _ (hfresh p (by simp))]
    rw [ih (acc ++ [(p.1, Json.str p.2)])]
    · simp
    · intro q hq
      rw [assocFind_append_left_none _ _ _ (hfresh q (by simp [hq]))]
      have hne : p.1 ≠ q.1 := by
        intro hcontra
        exact hnod.1 (List.mem_map.2 ⟨q, hq, hcontra.symm⟩)
      simp [assocFind, hne]
    · exact hnod.2

/-- C6: for every record whose values are scalar strings (with
pairwise-distinct field names, as a JSON mapping delivers), encoding the
values with `insert_row`'s encoder and then decoding the vendor-stored
properties with `get_rows`'s decoder returns exactly the original field
names with their original scalar strings, covering the `"tree"` (title),
`"status"` (single-select) and default (rich-text) branches. -/
theorem insert_get_roundtrip (values : List (String × String))
    (hnod : (values.map Prod.fst).Nodup) :
    get_rows_decode_row
        (values.map (fun p => (p.1, vendorStore (insert_row_value p.1 (Json.str p.2))))) =
      .ok (values.map (fun p => (p.1, Json.str p.2))) := by
  have h := insert_get_roundtrip_aux values [] (fun p _ => rfl) hnod
  simpa [get_rows_decode_row] using h

theorem insert_get_roundtrip_witness :
    get_rows_decode_row
        ([("Tree", "Oak"), ("Status", "Done"), ("Notes", "x")].map
          (fun p => (p.1, vendorStore (insert_row_value p.1 (Json.str p.2))))) =
      .ok ([("Tree", "Oak"), ("Status", "Done"), ("Notes", "x")].map
          (fun p => (p.1, Json.str p.2))) :=
  insert_get_roundtrip [("Tree", "Oak"), ("Status", "Done"), ("Notes", "x")] (by decide)

/-- C7: for every create-collection request whose parsed body is a JSON
object with `table` missing or falsy, or with `fields` missing or falsy
(and likewise for a body that parses to a falsy value, which the
`or {}` guard replaces with an empty dict), the handler answers 400 with
its descriptive message before entering its try-block, so the vendor
client is never invoked (the step is `clientError`, not `vendorCall`). -/
theorem create_table_missing_input_400 :
    (∀ (fs : List (String × Json)) (pageId : String),
      (((assocFind fs "table").getD Json.null).truthy = false ∨
       ((assocFind fs "fields").getD Json.null).truthy = false) →
      create_table_step (Json.obj fs) pageId =
        .clientError 400 (Json.obj [("error", Json.str "Missing table name or fields")])) ∧
    (∀ (parsed : Json) (pageId : String), parsed.truthy = false →
      create_table_step parsed pageId =
        .clientError 400 (Json.obj [("error", Json.str "Missing table name or fields")])) := by
  constructor
  · intro fs pageId h
    have hdata : (if (Json.obj fs).truthy = true then Json.obj fs else Json.obj []) =
        Json.obj fs := by
      cases fs with
      | nil => simp [Json.truthy]
      | cons p rest => simp [Json.truthy]
    simp only [create_table_step, hdata, Json.pyGet]
    rcases h with h | h <;> simp [h]
  · intro parsed pageId h
    have hdata : (if parsed.truthy = true then parsed else Json.obj []) = Json.obj [] := by
      rw [h]; simp
    simp only [create_table_step, hdata, Json.pyGet]
    simp [assocFind, Json.truthy]

theorem create_table_missing_input_400_witness :
    create_table_step (Json.obj [("table", Json.str "Notes")]) "pid" =
      .clientError 400 (Json.obj [("error", Json.str "Missing table name or fields")]) ∧
    create_table_step Json.null "pid" =
      .clientError 400 (Json.obj [("error", Json.str "Missing table name or fields")]) :=
  ⟨create_table_missing_input_400.1 [("table", Json.str "Notes")] "pid" (Or.inr (by decide)),
   create_table_missing_input_400.2 Json.null "pid" (by decide)⟩

/-- C9 counterexample: a request body parsing to a falsy non-dict — the
valid JSON body `null`, the value Flask's `get_json` yields for it — sent
to the insert handler is not treated as an empty object: `insert_row` has
no `or {}` guard, so `data.get("database_id")` raises an unhandled
`AttributeError` outside the try-block instead of producing the handler's
400 missing-key response. -/
theorem insert_row_null_body_cex :
    insert_row_step Json.null = .unhandled "AttributeError: no attribute get" := rfl

/-- C9 (amended): only the create-collection handler guards its parsed
body with `or {}`, coercing a falsy parse result (such as the body
`null`) to an empty dict and answering its 400 missing-key response; the
insert-record, update-schema and list-records handlers apply `.get`
directly to the parse result, so the same body raises an unhandled
attribute error that escapes the handler instead of the 400 missing-key
response (a syntactically malformed or absent body is already rejected by
the framework's JSON parsing before any handler code runs). -/
theorem handlers_falsy_body :
    (∀ (parsed : Json) (pageId : String), parsed.truthy = false →
      create_table_step parsed pageId =
        .clientError 400 (Json.obj [("error", Json.str "Missing table name or fields")])) ∧
    insert_row_step Json.null = .unhandled "AttributeError: no attribute get" ∧
    update_table_step Json.null = .unhandled "AttributeError: no attribute get" ∧
    get_rows_step Json.null = .unhandled "AttributeError: no attribute get" := by
  refine ⟨?_, rfl, rfl, rfl⟩
  intro parsed pageId h
  have hdata : (if parsed.truthy = true then parsed else Json.obj []) = Json.obj [] := by
    rw [h]; simp
  simp only [create_table_step, hdata, Json.pyGet]
  simp [assocFind, Json.truthy]

theorem handlers_falsy_body_witness :
    create_table_step Json.null "pid" =
      .clientError 400 (Json.obj [("error", Json.str "Missing table name or fields")]) ∧
    insert_row_step Json.null = .unhandled "AttributeError: no attribute get" :=
  ⟨handlers_falsy_body.1 Json.null "pid" (by decide), handlers_falsy_body.2.1⟩
